import Mathlib

/- Shallow embedding of the remo-python client library (src/remo/api.py):
   the upload batching pipeline, the progress tracker, the URL builder and
   the session authentication logic, together with theorems settling the
   specification's claims about them. -/

/-! ## Batching: API.split_files_by_size (api.py lines 243-258)

The source iterates over `files`, adds `os.path.getsize(path)` to a running
total, appends the path to the current bulk, closes the bulk once the total
reaches `bulk_size = 8 * 1024 * 1024`, and flushes a non-empty trailing bulk.
The filesystem size lookup is abstracted as a function `getsize`. -/

def bulk_size : Nat := 8 * 1024 * 1024

def splitGo {α : Type} (getsize : α → Nat) : List α → List α → Nat → List (List α)
  | [], bulk, _ => if bulk.length != 0 then [bulk] else []
  | p :: rest, bulk, total_size =>
    let total' := total_size + getsize p
    let bulk' := bulk ++ [p]
    if bulk_size ≤ total' then bulk' :: splitGo getsize rest [] 0
    else splitGo getsize rest bulk' total'

def split_files_by_size {α : Type} (getsize : α → Nat) (files : List α) :
    List (List α) :=
  splitGo getsize files [] 0

theorem splitGo_flatten {α : Type} (getsize : α → Nat) :
    ∀ (files bulk : List α) (total_size : Nat),
      (splitGo getsize files bulk total_size).flatten = bulk ++ files := by
  intro files
  induction files with
  | nil =>
    intro bulk total_size
    cases bulk with
    | nil => simp [splitGo]
    | cons b bs => simp [splitGo]
  | cons p rest ih =>
    intro bulk total_size
    simp only [splitGo]
    by_cases h : bulk_size ≤ total_size + getsize p
    · rw [if_pos h]
      simp [ih]
    · rw [if_neg h]
      rw [ih]
      simp

theorem splitGo_ne_nil {α : Type} (getsize : α → Nat) :
    ∀ (files bulk : List α) (total_size : Nat),
      ∀ b ∈ splitGo getsize files bulk total_size, b ≠ [] := by
  intro files
  induction files with
  | nil =>
    intro bulk total_size b hb
    cases bulk with
    | nil => simp [splitGo] at hb
    | cons x xs =>
      simp [splitGo] at hb
      subst hb
      simp
  | cons p rest ih =>
    intro bulk total_size b hb
    simp only [splitGo] at hb
    by_cases h : bulk_size ≤ total_size + getsize p
    · rw [if_pos h] at hb
      rcases List.mem_cons.mp hb with h1 | h2
      · subst h1; simp
      · exact ih [] 0 b h2
    · rw [if_neg h] at hb
      exact ih (bulk ++ [p]) (total_size + getsize p) b hb

theorem splitGo_full {α : Type} (getsize : α → Nat) :
    ∀ (files bulk : List α) (total_size : Nat),
      total_size = (bulk.map getsize).sum →
      ∀ b ∈ (splitGo getsize files bulk total_size).dropLast,
        bulk_size ≤ (b.map getsize).sum := by
  intro files
  induction files with
  | nil =>
    intro bulk total_size _ b hb
    cases bulk with
    | nil => simp [splitGo] at hb
    | cons x xs => simp [splitGo] at hb
  | cons p rest ih =>
    intro bulk total_size htot b hb
    simp only [splitGo] at hb
    by_cases h : bulk_size ≤ total_size + getsize p
    · rw [if_pos h] at hb
      cases hrec : splitGo getsize rest [] 0 with
      | nil =>
        rw [hrec] at hb
        simp at hb
      | cons r rs =>
        rw [hrec] at hb
        rw [List.dropLast_cons₂] at hb
        rcases List.mem_cons.mp hb with h1 | h2
        · subst h1
          have : ((bulk ++ [p]).map getsize).sum = total_size + getsize p := by
            simp [htot]
          rw [this]
          exact h
        · have := ih [] 0 rfl b
          rw [hrec] at this
          exact this h2
    · rw [if_neg h] at hb
      refine ih (bulk ++ [p]) (total_size + getsize p) ?_ b hb
      simp [htot]

/-- Claim C1: split_files_by_size appends each file in input order to the
current batch, closes the batch as soon as the accumulated byte size reaches
or exceeds the 8 MiB bulk size (a single file at least as large as the bulk
size forms its own one-element batch), and flushes any non-empty trailing
batch; every input file appears in exactly one batch, batch concatenation
preserves input order, only the last batch may sum to less than bulk_size,
and for five files of 2 MiB each, files 1-4 form the first batch and file 5
is alone in the second batch. -/
theorem C1_split_files_batches {α : Type} (g : α → Nat) (files : List α) (f : α)
    (hbig : bulk_size ≤ g f) :
    (split_files_by_size g files).flatten = files
    ∧ (∀ b ∈ split_files_by_size g files, b ≠ [])
    ∧ (∀ b ∈ (split_files_by_size g files).dropLast, bulk_size ≤ (b.map g).sum)
    ∧ split_files_by_size g [f] = [[f]]
    ∧ split_files_by_size (fun _ : Nat => 2 * 1024 * 1024) [1, 2, 3, 4, 5]
        = [[1, 2, 3, 4], [5]] := by
  refine ⟨splitGo_flatten g files [] 0,
          fun b hb => splitGo_ne_nil g files [] 0 b hb,
          fun b hb => splitGo_full g files [] 0 rfl b hb, ?_, by decide⟩
  simp [split_files_by_size, splitGo, hbig]

/-- Witness for C1, instantiated at a single 9 MiB file. -/
theorem C1_split_files_batches_witness :
    split_files_by_size (fun _ : Nat => 9 * 1024 * 1024) [7] = [[7]] :=
  (C1_split_files_batches (fun _ : Nat => 9 * 1024 * 1024) [7] 7 (by decide)).2.2.2.1

/-! ## Progress tracker: UploadStatus (api.py lines 13-39)

`progress()` computes `percentage = int(current_count / total_count * 100)`,
prints a report only when the percentage strictly exceeds the last reported
one, and always stores the newly computed percentage. The wall-clock reading
`(datetime.now() - self.start).seconds` is abstracted as the parameter `sec`;
the float arithmetic of the report fields is modelled exactly over ℚ. -/

structure UploadStatus where
  total_count : Nat
  current_count : Nat
  reported_progress : Nat
deriving DecidableEq

def UploadStatus.update (st : UploadStatus) (count : Nat) : UploadStatus :=
  { st with current_count := st.current_count + count }

structure Report where
  percentage : Nat
  current : Nat
  total : Nat
  elapsed : ℚ
  speed : ℚ
  eta : ℚ
deriving DecidableEq

def UploadStatus.progress (st : UploadStatus) (sec : Nat) :
    Option Report × UploadStatus :=
  let percentage := st.current_count * 100 / st.total_count
  if st.reported_progress < percentage then
    let elapsed : ℚ := (sec : ℚ) + 1 / 1000
    let avg_speed : ℚ := (st.current_count : ℚ) / elapsed
    (some { percentage := percentage, current := st.current_count,
            total := st.total_count, elapsed := elapsed, speed := avg_speed,
            eta := ((st.total_count : ℚ) - (st.current_count : ℚ)) / avg_speed },
     { st with reported_progress := percentage })
  else (Option.none, { st with reported_progress := percentage })

/-- Claim C3: UploadStatus.progress computes
percentage = floor(current_count / total_count * 100), emits a report
(percentage, counts, elapsed time, throughput, ETA) if and only if this
percentage strictly exceeds the last reported percentage, and always sets the
last reported percentage to the newly computed value; consequently update(0)
followed by progress() never re-reports. -/
theorem C3_progress_reporting (st : UploadStatus) (sec sec2 : Nat)
    (h : 0 < st.total_count) :
    ((st.progress sec).1.isSome
        = decide (st.reported_progress < st.current_count * 100 / st.total_count))
    ∧ (st.progress sec).2.reported_progress
        = st.current_count * 100 / st.total_count
    ∧ (st.progress sec).2.current_count = st.current_count
    ∧ (st.progress sec).2.total_count = st.total_count
    ∧ (∀ r, (st.progress sec).1 = some r →
        r.percentage = st.current_count * 100 / st.total_count
        ∧ r.current = st.current_count
        ∧ r.total = st.total_count
        ∧ r.elapsed = (sec : ℚ) + 1 / 1000
        ∧ r.speed = (st.current_count : ℚ) / ((sec : ℚ) + 1 / 1000)
        ∧ r.eta = ((st.total_count : ℚ) - (st.current_count : ℚ)) / r.speed)
    ∧ (((st.progress sec).2.update 0).progress sec2).1 = Option.none := by
  refine ⟨?_, ?_, ?_, ?_, ?_, ?_⟩
  · by_cases hp : st.reported_progress < st.current_count * 100 / st.total_count <;>
      simp [UploadStatus.progress, hp]
  · by_cases hp : st.reported_progress < st.current_count * 100 / st.total_count <;>
      simp [UploadStatus.progress, hp]
  · by_cases hp : st.reported_progress < st.current_count * 100 / st.total_count <;>
      simp [UploadStatus.progress, hp]
  · by_cases hp : st.reported_progress < st.current_count * 100 / st.total_count <;>
      simp [UploadStatus.progress, hp]
  · intro r hr
    by_cases hp : st.reported_progress < st.current_count * 100 / st.total_count
    · simp only [UploadStatus.progress, if_pos hp, Option.some.injEq] at hr
      subst hr
      exact ⟨rfl, rfl, rfl, rfl, rfl, rfl⟩
    · simp [UploadStatus.progress, hp] at hr
  · by_cases hp : st.reported_progress < st.current_count * 100 / st.total_count <;>
      simp [UploadStatus.progress, UploadStatus.update, hp, lt_self_iff_false]

/-- Witness for C3: with total_count = 10, current_count = 3 and nothing
reported yet, progress() stores 30 as the reported percentage. -/
theorem C3_progress_reporting_witness :
    ((UploadStatus.mk 10 3 0).progress 1).2.reported_progress = 3 * 100 / 10 :=
  (C3_progress_reporting ⟨10, 3, 0⟩ 1 5 (by decide)).2.1

/-! ## Session and authentication: BaseAPI (api.py lines 42-75)

HTTP responses are modelled as a record of status code, raw text body and
parsed JSON body (the JSON parse is abstracted: `jsonBody` stands for the
value of `resp.json()`). The network itself is a parameter `net`, so that
"no network request is attempted" is expressed as the result not depending
on (and never applying) `net`. -/

structure Response where
  status_code : Nat
  text : String
  jsonBody : String
deriving DecidableEq

def _auth_header (token : Option String) :
    Except String (List (String × String)) :=
  match token with
  | Option.none => Except.error "Not authenticated"
  | some t => Except.ok [("Authorization", "Token " ++ t)]

def post (token : Option String) (net : List (String × String) → Response) :
    Except String Response :=
  match _auth_header token with
  | Except.error e => Except.error e
  | Except.ok h => Except.ok (net h)

def get (token : Option String) (net : List (String × String) → Response) :
    Except String Response :=
  match _auth_header token with
  | Except.error e => Except.error e
  | Except.ok h => Except.ok (net h)

/-- Claim C4: for every call to post or get on a session whose token is
absent, the operation fails immediately with the "Not authenticated" error;
the abstract network function `net` is universally quantified and never
applied, so no network request is attempted. -/
theorem C4_unauthenticated_fails_fast
    (net net2 : List (String × String) → Response) :
    post Option.none net = Except.error "Not authenticated"
    ∧ get Option.none net2 = Except.error "Not authenticated" :=
  ⟨rfl, rfl⟩

/-- The body of the login response: `resp.json()`, of which `_login` reads
the field `key` (absent field gives Python None, modelled by Option). -/
structure LoginBody where
  key : Option String
deriving DecidableEq

/-- Outcome of the one `requests.post` call made during login: either a
connection error or a response with a status code and a parsed body. -/
inductive LoginNet where
  | connError : LoginNet
  | response : Nat → LoginBody → LoginNet

/-- BaseAPI._login (api.py lines 48-58): a connection error is caught and
reported, leaving the token as-is (None); a non-200 status raises
Exception(resp.json()); otherwise the token becomes resp.json().get('key').
The Except error carries what the raised exception carries. -/
def _login : LoginNet → Except LoginBody (Option String)
  | LoginNet.connError => Except.ok Option.none
  | LoginNet.response status body =>
    if status != 200 then Except.error body else Except.ok body.key

/-- Claim C5: during login, a connection failure leaves the session
unauthenticated (token absent) without raising; a non-success HTTP status
raises an authentication error carrying the server's response body; on
success the token is extracted from the response body field `key`. -/
theorem C5_login_outcomes (status : Nat) (b b2 : LoginBody) (h : status ≠ 200) :
    _login LoginNet.connError = Except.ok Option.none
    ∧ _login (LoginNet.response status b) = Except.error b
    ∧ _login (LoginNet.response 200 b2) = Except.ok b2.key := by
  refine ⟨rfl, ?_, rfl⟩
  simp [_login, h]

/-- Witness for C5 at a 404 login response. -/
theorem C5_login_outcomes_witness :
    _login (LoginNet.response 404 ⟨some "body"⟩) = Except.error ⟨some "body"⟩ :=
  (C5_login_outcomes 404 ⟨some "body"⟩ ⟨some "k"⟩ (by decide)).2.1

/-! ## URL builder: BaseAPI._build_url (api.py lines 77-113)

Positional arguments are, in the source, strings and ints; they are modelled
by `Scalar`, with `pyStrScalar` playing the role of Python's `str()`.
Keyword values are strings, ints, lists of scalars, or None, modelled by
`PVal`. `quote` is urllib.parse.quote with its default safe set `'/'`:
ASCII alphanumerics and `_.-~/` pass through, every other character is
percent-encoded byte-wise over its UTF-8 encoding, with uppercase hex.
The `tail_slash` keyword is modelled as the separate parameter `tail?`;
Python evaluates the default argument of `kwargs.pop` eagerly, so
`args[-1]` is read (and can raise IndexError) even when an explicit
`tail_slash` is supplied — the model therefore computes `defaultTailSlash`
first and propagates its failure as `Option.none`. -/

inductive Scalar where
  | s : String → Scalar
  | i : Int → Scalar
deriving DecidableEq

def pyStrScalar : Scalar → String
  | Scalar.s v => v
  | Scalar.i n => toString n

inductive PVal where
  | str : String → PVal
  | int : Int → PVal
  | list : List Scalar → PVal
  | pynone : PVal
deriving DecidableEq

def hexDigitChar (n : Nat) : Char :=
  if n < 10 then Char.ofNat (48 + n) else Char.ofNat (55 + n)

def pctEncodeByte (n : Nat) : List Char :=
  ['%', hexDigitChar (n / 16), hexDigitChar (n % 16)]

def utf8Bytes (c : Char) : List Nat :=
  let n := c.toNat
  if n < 128 then [n]
  else if n < 2048 then [192 + n / 64, 128 + n % 64]
  else if n < 65536 then [224 + n / 4096, 128 + n / 64 % 64, 128 + n % 64]
  else [240 + n / 262144, 128 + n / 4096 % 64, 128 + n / 64 % 64, 128 + n % 64]

def isSafeChar (c : Char) : Bool :=
  c.isAlphanum || c == '_' || c == '.' || c == '-' || c == '~' || c == '/'

def quoteOne (c : Char) : List Char :=
  if isSafeChar c then [c] else ((utf8Bytes c).map pctEncodeByte).flatten

def quote (s : String) : String :=
  String.mk ((s.data.map quoteOne).flatten)

/-- Python's `str.split` with a one-character separator: splitting the empty
string gives `[""]`, and every separator occurrence opens a new piece. -/
def splitChar (sep : Char) : List Char → List (List Char)
  | [] => [[]]
  | c :: cs =>
    match splitChar sep cs with
    | [] => [[]]
    | h :: t => if c = sep then [] :: h :: t else (c :: h) :: t

def splitComma (v : String) : List String :=
  (splitChar ',' v.data).map String.mk

/-- Python's `sep.join`. -/
def pyJoin (sep : String) : List String → String
  | [] => ""
  | [x] => x
  | x :: y :: xs => x ++ sep ++ pyJoin sep (y :: xs)

/-- The body of the query-parameter loop of _build_url (api.py lines 92-104):
the rendered `key=value` fragment, or none when the pair is dropped. -/
def renderParam (key : String) : PVal → Option String
  | PVal.str v =>
    if v.data.contains ',' then
      some (key ++ "=" ++ pyJoin "," ((splitComma v).map quote))
    else some (key ++ "=" ++ quote v)
  | PVal.list l =>
    some (key ++ "=" ++ pyJoin "," (l.map (fun x => quote (pyStrScalar x))))
  | PVal.int n => if n != 0 then some (key ++ "=" ++ toString n) else Option.none
  | PVal.pynone => Option.none

/-- api.py line 87: `args = list(filter(lambda arg: arg is not None, args))`. -/
def filterArgs (args : List (Option Scalar)) : List Scalar :=
  args.filterMap (fun a => a)

/-- Python's `str.strip('/')`. -/
def stripSlashes (s : String) : String :=
  String.mk (((s.data.dropWhile (fun ch => ch == '/')).reverse.dropWhile
      (fun ch => ch == '/')).reverse)

/-- api.py line 88: the default for tail_slash is `str(args[-1])[-1] == '/'`;
`args[-1]` on an empty list raises IndexError, as does `s[-1]` on an empty
string, both modelled by Option.none. -/
def defaultTailSlash (fargs : List Scalar) : Option Bool :=
  match fargs.getLast? with
  | Option.none => Option.none
  | some a =>
    match (pyStrScalar a).data.getLast? with
    | Option.none => Option.none
    | some ch => some (ch == '/')

/-- api.py line 89: `url = '/'.join(map(lambda x: str(x).strip('/'), args))`. -/
def urlOfArgs (args : List (Option Scalar)) : String :=
  pyJoin "/" ((filterArgs args).map (fun a => stripSlashes (pyStrScalar a)))

def _build_url (args : List (Option Scalar)) (kwargs : List (String × PVal))
    (tail? : Option Bool) : Option String :=
  match defaultTailSlash (filterArgs args) with
  | Option.none => Option.none
  | some dflt =>
    let tail_slash := tail?.getD dflt
    let url := urlOfArgs args
    let params := kwargs.filterMap (fun kv => renderParam kv.1 kv.2)
    some (if params.length != 0 then
            url ++ (if url.data.contains '?' then "&" else "/?")
                ++ pyJoin "&" params
          else if (!url.data.contains '?') && tail_slash then url ++ "/"
          else url)

theorem string_append_empty (s : String) : s ++ "" = s := by
  cases s with
  | mk l =>
    show String.mk (l ++ []) = String.mk l
    rw [List.append_nil]

/-- Claim C2, corrected: the falsy values 0 and None are omitted entirely
from the query string, but the empty string "" is of str type, so the str
branch of the loop renders it as the empty query entry `key=`. -/
theorem C2_falsy_params (args : List (Option Scalar))
    (kw1 kw2 : List (String × PVal)) (k k2 k3 : String) (t : Option Bool) :
    _build_url args (kw1 ++ (k, PVal.int 0) :: kw2) t
        = _build_url args (kw1 ++ kw2) t
    ∧ _build_url args (kw1 ++ (k2, PVal.pynone) :: kw2) t
        = _build_url args (kw1 ++ kw2) t
    ∧ renderParam k3 (PVal.str "") = some (k3 ++ "=") := by
  refine ⟨?_, ?_, ?_⟩
  · simp only [_build_url]
    cases defaultTailSlash (filterArgs args) with
    | none => rfl
    | some dflt =>
      simp only [List.filterMap_append, List.filterMap_cons]
      rw [show renderParam k (PVal.int 0) = Option.none from rfl]
  · simp only [_build_url]
    cases defaultTailSlash (filterArgs args) with
    | none => rfl
    | some dflt =>
      simp only [List.filterMap_append, List.filterMap_cons]
      rw [show renderParam k2 PVal.pynone = Option.none from rfl]
  · have h1 : renderParam k3 (PVal.str "") = some (k3 ++ "=" ++ "") := rfl
    rw [h1, string_append_empty]

/-- Counterexample for C2 as stated: the empty-string query value is not
omitted; it renders as the empty entry `key=`, changing the resulting URL. -/
theorem C2_falsy_params_counterexample :
    _build_url [some (Scalar.s "s")] [("key", PVal.str "")] Option.none
        = some "s/?key="
    ∧ _build_url [some (Scalar.s "s")] [] Option.none = some "s"
    ∧ ("s/?key=" : String) ≠ "s" := by
  refine ⟨by decide, by decide, by decide⟩

/-- Claim C10: _build_url requires at least one non-None positional segment.
When all positional arguments are None or none are given it fails with the
IndexError from `args[-1]` while computing the default tail_slash, even when
an explicit tail_slash was supplied; with at least one non-None segment,
the `args[-1]` access is safe. -/
theorem C10_requires_segment (args : List (Option Scalar)) :
    (filterArgs args = [] →
      ∀ (kwargs : List (String × PVal)) (t : Option Bool),
        _build_url args kwargs t = Option.none)
    ∧ (filterArgs args ≠ [] → ((filterArgs args).getLast?).isSome = true) := by
  constructor
  · intro h kwargs t
    simp [_build_url, h, defaultTailSlash]
  · intro h
    simp [List.getLast?_isSome, h]

/-- Witness for C10: with the only positional argument None, even an
explicit tail_slash does not avoid the failure. -/
theorem C10_requires_segment_witness :
    _build_url [Option.none] [] (some true) = Option.none :=
  (C10_requires_segment [Option.none]).1 rfl [] (some true)

/-- Claim C8, corrected: with at least one non-None positional segment whose
stringification is non-empty and no query parameters, the result is the
non-None segments, each stripped of leading and trailing '/', joined by '/';
with no explicit tail_slash flag, a trailing '/' is appended exactly when
the last non-None positional argument originally ended in '/' AND the joined
URL does not contain a '?' character. -/
theorem C8_segments_join (args : List (Option Scalar)) (a : Scalar) (c : Char)
    (hlast : (filterArgs args).getLast? = some a)
    (hc : (pyStrScalar a).data.getLast? = some c) :
    _build_url args [] Option.none =
      some (if (!(urlOfArgs args).data.contains '?') && (c == '/')
            then urlOfArgs args ++ "/" else urlOfArgs args) := by
  have hd : defaultTailSlash (filterArgs args) = some (c == '/') := by
    simp [defaultTailSlash, hlast, hc]
  simp [_build_url, hd]

/-- Witness for C8 at the call _build_url("v1/datasets/"). -/
theorem C8_segments_join_witness :
    _build_url [some (Scalar.s "v1/datasets/")] [] Option.none =
      some (if (!(urlOfArgs [some (Scalar.s "v1/datasets/")]).data.contains '?')
                && ('/' == '/')
            then urlOfArgs [some (Scalar.s "v1/datasets/")] ++ "/"
            else urlOfArgs [some (Scalar.s "v1/datasets/")]) :=
  C8_segments_join [some (Scalar.s "v1/datasets/")] (Scalar.s "v1/datasets/") '/'
    (by decide) (by decide)

/-- Counterexample for C8 as stated: for the single segment "a?/", which
ends in '/', the claim demands the trailing slash be appended (giving
"a?/"), but since the joined URL contains '?', the code returns "a?". -/
theorem C8_segments_join_counterexample :
    _build_url [some (Scalar.s "a?/")] [] Option.none = some "a?"
    ∧ ("a?" : String) ≠ "a?/" := by
  refine ⟨by decide, by decide⟩

/-! ## List/comma-string equivalence of query values (C9) -/

theorem splitChar_ne_nil (sep : Char) (l : List Char) : splitChar sep l ≠ [] := by
  cases l with
  | nil => simp [splitChar]
  | cons c cs =>
    simp only [splitChar]
    cases splitChar sep cs with
    | nil => simp
    | cons h t => by_cases hc : c = sep <;> simp [hc]

theorem splitChar_no_sep (sep : Char) :
    ∀ (x : List Char), sep ∉ x → splitChar sep x = [x] := by
  intro x
  induction x with
  | nil => intro _; rfl
  | cons c cs ih =>
    intro h
    have hc : c ≠ sep := by
      intro he
      exact h (he ▸ List.mem_cons_self c cs)
    have hcs : sep ∉ cs := fun hm => h (List.mem_cons_of_mem c hm)
    simp only [splitChar]
    rw [ih hcs]
    simp [hc]

theorem splitChar_append_sep (sep : Char) :
    ∀ (x rest : List Char), sep ∉ x →
      splitChar sep (x ++ sep :: rest) = x :: splitChar sep rest := by
  intro x
  induction x with
  | nil =>
    intro rest _
    simp only [List.nil_append, splitChar]
    cases hr : splitChar sep rest with
    | nil => exact absurd hr (splitChar_ne_nil sep rest)
    | cons h t => simp [← hr]
  | cons c cs ih =>
    intro rest h
    have hc : c ≠ sep := by
      intro he
      exact h (he ▸ List.mem_cons_self c cs)
    have hcs : sep ∉ cs := fun hm => h (List.mem_cons_of_mem c hm)
    simp only [List.cons_append, splitChar]
    rw [List.append_eq, ih rest hcs]
    simp [hc]

/-- Character-level counterpart of `pyJoin` with a one-character separator. -/
def joinChars (sep : Char) : List (List Char) → List Char
  | [] => []
  | [x] => x
  | x :: y :: xs => x ++ sep :: joinChars sep (y :: xs)

theorem splitChar_joinChars (sep : Char) :
    ∀ (ls : List (List Char)), ls ≠ [] → (∀ l ∈ ls, sep ∉ l) →
      splitChar sep (joinChars sep ls) = ls := by
  intro ls
  induction ls with
  | nil => intro h _; exact absurd rfl h
  | cons x xs ih =>
    intro _ hmem
    cases xs with
    | nil =>
      show splitChar sep (joinChars sep [x]) = [x]
      simp only [joinChars]
      exact splitChar_no_sep sep x (hmem x (List.mem_cons_self x []))
    | cons y ys =>
      show splitChar sep (joinChars sep (x :: y :: ys)) = x :: y :: ys
      simp only [joinChars]
      rw [splitChar_append_sep sep x _ (hmem x (List.mem_cons_self x _))]
      rw [ih (by simp) (fun l hl => hmem l (List.mem_cons_of_mem x hl))]

theorem pyJoin_comma_data :
    ∀ (l : List String), (pyJoin "," l).data = joinChars ',' (l.map String.data) := by
  intro l
  induction l with
  | nil => rfl
  | cons x xs ih =>
    cases xs with
    | nil => rfl
    | cons y ys =>
      show (x ++ "," ++ pyJoin "," (y :: ys)).data
          = x.data ++ ',' :: joinChars ',' ((y :: ys).map String.data)
      rw [String.data_append, String.data_append, ih]
      simp

theorem splitComma_pyJoin (l : List String) (hne : l ≠ [])
    (h : ∀ s ∈ l, ',' ∉ s.data) :
    splitComma (pyJoin "," l) = l := by
  unfold splitComma
  rw [pyJoin_comma_data,
      splitChar_joinChars ',' (l.map String.data) (by simpa using hne)
        (by
          intro cl hcl
          obtain ⟨s, hs, rfl⟩ := List.mem_map.mp hcl
          exact h s hs)]
  rw [List.map_map]
  have hfun : (String.mk ∘ String.data) = id := funext fun s => rfl
  rw [hfun, List.map_id]

theorem char_contains_iff (l : List Char) (c : Char) :
    l.contains c = true ↔ c ∈ l := by
  simp [List.contains, List.elem_iff]

theorem renderParam_list_eq_str (key : String) (l : List Scalar)
    (h : ∀ x ∈ l, ',' ∉ (pyStrScalar x).data) :
    renderParam key (PVal.list l)
      = renderParam key (PVal.str (pyJoin "," (l.map pyStrScalar))) := by
  cases l with
  | nil => rfl
  | cons x xs =>
    cases xs with
    | nil =>
      have hx : ',' ∉ (pyStrScalar x).data := h x (List.mem_cons_self x [])
      have hc : (pyStrScalar x).data.contains ',' = false := by
        rw [Bool.eq_false_iff]
        intro hcontra
        exact hx ((char_contains_iff _ _).mp hcontra)
      have hjoin : pyJoin "," ((x :: []).map pyStrScalar) = pyStrScalar x := rfl
      simp only [renderParam, hjoin, hc]
      rfl
    | cons y ys =>
      have hcont :
          (pyJoin "," ((x :: y :: ys).map pyStrScalar)).data.contains ',' = true := by
        rw [char_contains_iff, pyJoin_comma_data]
        simp [joinChars]
      simp only [renderParam, hcont, if_true]
      rw [splitComma_pyJoin _ (by simp)
            (by
              intro s hs
              obtain ⟨z, hz, rfl⟩ := List.mem_map.mp hs
              exact h z hz)]
      rw [List.map_map]
      rfl

/-- Claim C9: a list query value whose elements contain no commas renders
identically to the equivalent comma-joined string value: each piece is
percent-encoded individually and the comma separator is left unencoded. -/
theorem C9_list_eq_comma_string (args : List (Option Scalar))
    (kw1 kw2 : List (String × PVal)) (key : String) (l : List Scalar)
    (t : Option Bool) (h : ∀ x ∈ l, ',' ∉ (pyStrScalar x).data) :
    _build_url args (kw1 ++ (key, PVal.list l) :: kw2) t
      = _build_url args (kw1 ++ (key, PVal.str (pyJoin "," (l.map pyStrScalar))) :: kw2) t := by
  have hr := renderParam_list_eq_str key l h
  simp only [_build_url]
  cases defaultTailSlash (filterArgs args) with
  | none => rfl
  | some dflt =>
    simp only [List.filterMap_append, List.filterMap_cons]
    rw [hr]

/-- Witness for C9: the list value ["x","y"] renders as the string "x,y". -/
theorem C9_list_eq_comma_string_witness :
    _build_url [some (Scalar.s "srv")]
        [("k", PVal.list [Scalar.s "x", Scalar.s "y"])] Option.none
      = _build_url [some (Scalar.s "srv")]
        [("k", PVal.str (pyJoin "," ([Scalar.s "x", Scalar.s "y"].map pyStrScalar)))]
        Option.none :=
  C9_list_eq_comma_string [some (Scalar.s "srv")] [] [] "k"
    [Scalar.s "x", Scalar.s "y"] Option.none (by decide)

/-! ## Upload pipeline: API.upload_files / API.bulk_upload_files
(api.py lines 173-233)

`upload_files` posts one batch, prints a warning with the response text and
the batch's file list when the status is not 200, updates the shared
UploadStatus by the batch's file count, asks it for a progress report, and
returns `r.json()` (modelled by the `jsonBody` field) in all cases.
`bulk_upload_files` splits the resolved files into size-bounded batches and
runs them through `ThreadPoolExecutor(1)`, i.e. strictly sequentially; the
per-batch HTTP response is abstracted as the function `respOf`, and the
wall-clock readings of the successive progress calls as the list `secs`. -/

structure Warning where
  text : String
  files : List String
deriving DecidableEq

structure UploadOutcome where
  warning : Option Warning
  report : Option Report
  newStatus : UploadStatus
  result : String
deriving DecidableEq

def upload_files (resp : Response) (files_to_upload : List String)
    (status : UploadStatus) (sec : Nat) : UploadOutcome :=
  let warn := if resp.status_code != 200 then
      some { text := resp.text, files := files_to_upload } else Option.none
  let pr := (status.update files_to_upload.length).progress sec
  { warning := warn, report := pr.1, newStatus := pr.2, result := resp.jsonBody }

def run_batches (respOf : List String → Response) :
    List (List String) → List Nat → UploadStatus →
      List UploadOutcome × UploadStatus
  | [], _, status => ([], status)
  | g :: gs, secs, status =>
    let o := upload_files (respOf g) g status (secs.headD 0)
    let r := run_batches respOf gs secs.tail o.newStatus
    (o :: r.1, r.2)

def UploadStatus.init (n : Nat) : UploadStatus :=
  { total_count := n, current_count := 0, reported_progress := 0 }

def bulk_upload_files (respOf : List String → Response)
    (getsize : String → Nat) (files_to_upload : List String)
    (secs : List Nat) : List UploadOutcome × UploadStatus :=
  run_batches respOf (split_files_by_size getsize files_to_upload) secs
    (UploadStatus.init files_to_upload.length)

theorem run_batches_length (respOf : List String → Response) :
    ∀ (gs : List (List String)) (secs : List Nat) (status : UploadStatus),
      (run_batches respOf gs secs status).1.length = gs.length := by
  intro gs
  induction gs with
  | nil => intro secs status; rfl
  | cons g gs ih =>
    intro secs status
    simp [run_batches, ih]

theorem run_batches_results (respOf : List String → Response) :
    ∀ (gs : List (List String)) (secs : List Nat) (status : UploadStatus),
      (run_batches respOf gs secs status).1.map UploadOutcome.result
        = gs.map (fun gp => (respOf gp).jsonBody) := by
  intro gs
  induction gs with
  | nil => intro secs status; rfl
  | cons g gs ih =>
    intro secs status
    simp [run_batches, upload_files, ih]

/-- Claim C6: a non-success HTTP status for one batch's upload does not
abort the pipeline: the failure is reported together with the batch's file
list and response body, the progress tracker is still updated by that
batch's file count and asked to emit a progress report, and the remaining
batches are processed from the updated tracker state. -/
theorem C6_batch_failure_isolated (respOf : List String → Response)
    (secs : List Nat) (g : List String) (gs : List (List String))
    (status : UploadStatus) (h : (respOf g).status_code ≠ 200) :
    (run_batches respOf (g :: gs) secs status).1
      = { warning := some { text := (respOf g).text, files := g },
          report := ((status.update g.length).progress (secs.headD 0)).1,
          newStatus := ((status.update g.length).progress (secs.headD 0)).2,
          result := (respOf g).jsonBody }
        :: (run_batches respOf gs secs.tail
              ((status.update g.length).progress (secs.headD 0)).2).1
    ∧ (run_batches respOf (g :: gs) secs status).1.length = gs.length + 1 := by
  constructor
  · simp [run_batches, upload_files, h]
  · simp [run_batches, run_batches_length]

/-- Witness for C6 at a single failing batch with status 500. -/
theorem C6_batch_failure_isolated_witness :
    (run_batches (fun _ => { status_code := 500, text := "boom", jsonBody := "j" })
        [["a"]] [0] ⟨1, 0, 0⟩).1.length = ([] : List (List String)).length + 1 :=
  (C6_batch_failure_isolated
      (fun _ => { status_code := 500, text := "boom", jsonBody := "j" })
      [0] ["a"] [] ⟨1, 0, 0⟩ (by decide)).2

/-- Per-batch result as claim C7 states it: the parsed JSON body for a
successful batch, the raw response for a failed one. -/
def claim_batch_result (r : Response) : String ⊕ Response :=
  if r.status_code = 200 then Sum.inl r.jsonBody else Sum.inr r

/-- Claim C7, corrected: bulk_upload_files returns one result per batch,
and that result is the parsed JSON response body (`r.json()`) for every
batch, failed or successful — the raw response object is never returned. -/
theorem C7_results_per_batch (respOf : List String → Response)
    (getsize : String → Nat) (files_to_upload : List String)
    (secs : List Nat) :
    (bulk_upload_files respOf getsize files_to_upload secs).1.map
        UploadOutcome.result
      = (split_files_by_size getsize files_to_upload).map
          (fun gp => (respOf gp).jsonBody) := by
  unfold bulk_upload_files
  exact run_batches_results respOf _ secs _

/-- Counterexample for C7 as stated: for a batch failing with status 500,
the pipeline's result is the parsed JSON body "ejson", while the claim
demands the raw response — a different value. -/
theorem C7_results_per_batch_counterexample :
    (bulk_upload_files (fun _ => { status_code := 500, text := "err", jsonBody := "ejson" })
        (fun _ => 1) ["f"] [0]).1.map UploadOutcome.result = ["ejson"]
    ∧ claim_batch_result { status_code := 500, text := "err", jsonBody := "ejson" }
        = Sum.inr { status_code := 500, text := "err", jsonBody := "ejson" }
    ∧ (Sum.inl "ejson" : String ⊕ Response)
        ≠ Sum.inr { status_code := 500, text := "err", jsonBody := "ejson" } := by
  refine ⟨by decide, by decide, by decide⟩
